import Mathlib

/-! # go-faucet: the startup sequence and the `GET /faucet/:address` handler

A shallow embedding of `src/main.go`.  The program is a straight-line sequence of calls
into gin and the klaytn client library, with an early `return` after every failed call.
Each such call is kept as one node of a program tree (`Prog`) whose continuation receives
the call's result; an interpreter answers the calls from an arbitrary, stateful model of
the outside world (`World`) and records every call together with its result (`Event`).
The same tree is run to completion (`Prog.trace`) or one call at a time under a
scheduler (`runSchedule`), which gives the interleavings of concurrently served requests.
-/

namespace Faucet

/-! ## Data -/

/-- Go's `len` of a string: the number of bytes of its UTF-8 encoding. -/
def len (s : String) : Nat := s.utf8ByteSize

/-- The 20-byte account identifier `common.Address`. -/
structure Address where
  bytes : List Nat
  deriving DecidableEq

/-- The transaction hash `common.Hash`. -/
structure Hash where
  bytes : List Nat
  deriving DecidableEq

/-- An `*ecdsa.PrivateKey`, identified by its secret scalar. -/
structure PrivateKey where
  D : Nat
  deriving DecidableEq

/-- The handle `*client.Client` returned by `client.Dial`. -/
structure Client where
  id : Nat
  deriving DecidableEq

/-- The value built by `types.NewEIP155Signer(chainId)`. -/
structure EIP155Signer where
  chainId : Int
  deriving DecidableEq

/-- The constructor `types.NewEIP155Signer`. -/
def NewEIP155Signer (chainId : Int) : EIP155Signer := ⟨chainId⟩

/-- One `(V, R, S)` signature. -/
structure Signature where
  V : Nat
  R : Nat
  S : Nat
  deriving DecidableEq

/-- The signatures `SignWithKeys` attaches to a transaction, one per key. -/
abbrev TxSignatures := List Signature

/-- The fields of a `*types.Transaction` made by `types.NewTransaction`; `signatures` is
`none` until `SignWithKeys` succeeds. -/
structure Transaction where
  nonce : Nat
  recipient : Address
  amount : Int
  gasLimit : Nat
  gasPrice : Int
  data : List Nat
  signatures : Option TxSignatures
  deriving DecidableEq

/-- The constructor `types.NewTransaction(nonce, to, amount, gasLimit, gasPrice, data)`; its
parameter `to` is the field `recipient`. -/
def NewTransaction (nonce : Nat) (recipient : Address) (amount : Int) (gasLimit : Nat)
    (gasPrice : Int) (data : List Nat) : Transaction :=
  { nonce := nonce, recipient := recipient, amount := amount, gasLimit := gasLimit,
    gasPrice := gasPrice, data := data, signatures := none }

/-- Modelled from the spec: the constant `params.KLAY` of the klaytn library, the number of
peb in one KLAY, which the specification gives as `10^18`. -/
def KLAY : Nat := 1000000000000000000

/-- Modelled from the spec: the constant `params.Ston` of the klaytn library, the number of
peb in one Ston, which the specification gives as `10^9`. -/
def Ston : Nat := 1000000000

/-- The struct `UriInput` the path parameter is bound into. -/
structure UriInput where
  Address : String
  deriving DecidableEq

/-- A result of a library call that returns `(value, error)`: `err msg` carries the text of
`err.Error()`. -/
inductive Res (α : Type) where
  | ok (a : α)
  | err (msg : String)
  deriving DecidableEq

/-- Whether a result is an error. -/
def Res.isErr {α : Type} : Res α → Bool
  | .ok _ => false
  | .err _ => true

/-- The request as the handler sees it, the `*gin.Context`: the only thing the handler
reads from it is the outcome of `c.ShouldBindUri(&input)`. -/
structure Context where
  ShouldBindUri : Res UriInput
  deriving DecidableEq

/-- The one-entry JSON object `gin.H` the handler answers with. -/
inductive H where
  | msg (text : String)
  | txHash (h : Hash)
  deriving DecidableEq

/-- The variables of `main` the handler closure captures. -/
structure Captured where
  endpoint : String
  signer : EIP155Signer
  faucetPrvKey : PrivateKey
  faucetAddr : Address
  deriving DecidableEq

/-- The pure functions of the libraries `main` uses. -/
structure Lib where
  /-- The function `strconv.Atoi`. -/
  Atoi : String → Res Int
  /-- The function `crypto.HexToECDSA`. -/
  HexToECDSA : String → Res PrivateKey
  /-- The composition `crypto.PubkeyToAddress(key.PublicKey)`. -/
  PubkeyToAddress : PrivateKey → Address
  /-- The function `common.HexToAddress`. -/
  HexToAddress : String → Address
  /-- The method `Address.String`. -/
  AddressString : Address → String

/-- The node and the signing routine, as a deterministic machine with state `σ`: every call
returns its result and the next state. -/
structure World (σ : Type) where
  /-- The call `client.Dial(rawurl)`. -/
  Dial : String → σ → Res Client × σ
  /-- The call `cli.Close()`. -/
  Close : Client → σ → σ
  /-- The call `cli.PendingNonceAt(ctx, account)`. -/
  PendingNonceAt : Client → Address → σ → Res Nat × σ
  /-- The call `tx.SignWithKeys(signer, keys)`: the signatures it would attach, or its error. -/
  SignWithKeys : Transaction → EIP155Signer → List PrivateKey → σ → Res TxSignatures × σ
  /-- The call `cli.SendRawTransaction(ctx, tx)`. -/
  SendRawTransaction : Client → Transaction → σ → Res Hash × σ

/-- The four fallible steps of an issuance. -/
inductive Step where
  | connect
  | nonceFetch
  | sign
  | submit
  deriving DecidableEq

/-- One call made by the program, with what it returned. -/
inductive Event where
  | println (line : String)
  | json (code : Nat) (obj : H)
  | dial (rawurl : String) (res : Res Client)
  | close (cli : Client)
  | pendingNonceAt (cli : Client) (account : Address) (res : Res Nat)
  | newTransaction (tx : Transaction)
  | signWithKeys (tx : Transaction) (signer : EIP155Signer) (keys : List PrivateKey)
      (res : Res TxSignatures)
  | sendRawTransaction (cli : Client) (tx : Transaction) (res : Res Hash)
  | ginDefault
  | routeGET (path : String) (closure : Captured)
  | routeRun (addr : String)
  deriving DecidableEq

/-! ## Programs -/

/-- A program: a tree of library calls, each with the rest of the program as a function of
the call's result. -/
inductive Prog where
  | done
  | println (line : String) (k : Prog)
  | json (code : Nat) (obj : H) (k : Prog)
  | dial (rawurl : String) (k : Res Client → Prog)
  | close (cli : Client) (k : Prog)
  | pendingNonceAt (cli : Client) (account : Address) (k : Res Nat → Prog)
  | newTransaction (nonce : Nat) (recipient : Address) (amount : Int) (gasLimit : Nat)
      (gasPrice : Int) (data : List Nat) (k : Transaction → Prog)
  | signWithKeys (tx : Transaction) (signer : EIP155Signer) (keys : List PrivateKey)
      (k : Res Transaction → Prog)
  | sendRawTransaction (cli : Client) (tx : Transaction) (k : Res Hash → Prog)
  | ginDefault (k : Prog)
  | routeGET (path : String) (closure : Captured) (k : Prog)
  | routeRun (addr : String) (k : Prog)

/-- Run `p`, then `q`. -/
def Prog.seq : Prog → Prog → Prog
  | .done, q => q
  | .println l k, q => .println l (k.seq q)
  | .json c o k, q => .json c o (k.seq q)
  | .dial u k, q => .dial u (fun r => (k r).seq q)
  | .close cli k, q => .close cli (k.seq q)
  | .pendingNonceAt cli a k, q => .pendingNonceAt cli a (fun r => (k r).seq q)
  | .newTransaction n rcpt amt gl gp d k, q =>
      .newTransaction n rcpt amt gl gp d (fun tx => (k tx).seq q)
  | .signWithKeys tx sg ks k, q => .signWithKeys tx sg ks (fun r => (k r).seq q)
  | .sendRawTransaction cli tx k, q => .sendRawTransaction cli tx (fun r => (k r).seq q)
  | .ginDefault k, q => .ginDefault (k.seq q)
  | .routeGET p c k, q => .routeGET p c (k.seq q)
  | .routeRun a k, q => .routeRun a (k.seq q)

/-- Go's `defer`: `deferred` runs when `body` returns, on whichever path it returns. -/
def withDefer (deferred body : Prog) : Prog := body.seq deferred

/-- What `SignWithKeys` leaves in `tx`: the signatures on success, `tx` untouched on error. -/
def signedResult (tx : Transaction) : Res TxSignatures → Res Transaction
  | .ok sigs => .ok { tx with signatures := some sigs }
  | .err e => .err e

/-- One call of a program: the event it records, the rest of the program and the next
state of the world; `none` when the program has returned. -/
def Prog.step {σ : Type} (W : World σ) : Prog → σ → Option (Event × Prog × σ)
  | .done, _ => none
  | .println l k, s => some (.println l, k, s)
  | .json c o k, s => some (.json c o, k, s)
  | .dial u k, s => some (.dial u (W.Dial u s).1, k (W.Dial u s).1, (W.Dial u s).2)
  | .close cli k, s => some (.close cli, k, W.Close cli s)
  | .pendingNonceAt cli a k, s =>
      some (.pendingNonceAt cli a (W.PendingNonceAt cli a s).1,
        k (W.PendingNonceAt cli a s).1, (W.PendingNonceAt cli a s).2)
  | .newTransaction n rcpt amt gl gp d k, s =>
      some (.newTransaction (NewTransaction n rcpt amt gl gp d),
        k (NewTransaction n rcpt amt gl gp d), s)
  | .signWithKeys tx sg ks k, s =>
      some (.signWithKeys tx sg ks (W.SignWithKeys tx sg ks s).1,
        k (signedResult tx (W.SignWithKeys tx sg ks s).1), (W.SignWithKeys tx sg ks s).2)
  | .sendRawTransaction cli tx k, s =>
      some (.sendRawTransaction cli tx (W.SendRawTransaction cli tx s).1,
        k (W.SendRawTransaction cli tx s).1, (W.SendRawTransaction cli tx s).2)
  | .ginDefault k, s => some (.ginDefault, k, s)
  | .routeGET p c k, s => some (.routeGET p c, k, s)
  | .routeRun a k, s => some (.routeRun a, k, s)

/-- The calls a program makes when run to its return from state `s`, in order. -/
def Prog.trace {σ : Type} (W : World σ) : Prog → σ → List Event
  | .done, _ => []
  | .println l k, s => .println l :: k.trace W s
  | .json c o k, s => .json c o :: k.trace W s
  | .dial u k, s => .dial u (W.Dial u s).1 :: (k (W.Dial u s).1).trace W (W.Dial u s).2
  | .close cli k, s => .close cli :: k.trace W (W.Close cli s)
  | .pendingNonceAt cli a k, s =>
      .pendingNonceAt cli a (W.PendingNonceAt cli a s).1 ::
        (k (W.PendingNonceAt cli a s).1).trace W (W.PendingNonceAt cli a s).2
  | .newTransaction n rcpt amt gl gp d k, s =>
      .newTransaction (NewTransaction n rcpt amt gl gp d) ::
        (k (NewTransaction n rcpt amt gl gp d)).trace W s
  | .signWithKeys tx sg ks k, s =>
      .signWithKeys tx sg ks (W.SignWithKeys tx sg ks s).1 ::
        (k (signedResult tx (W.SignWithKeys tx sg ks s).1)).trace W
          (W.SignWithKeys tx sg ks s).2
  | .sendRawTransaction cli tx k, s =>
      .sendRawTransaction cli tx (W.SendRawTransaction cli tx s).1 ::
        (k (W.SendRawTransaction cli tx s).1).trace W (W.SendRawTransaction cli tx s).2
  | .ginDefault k, s => .ginDefault :: k.trace W s
  | .routeGET p c k, s => .routeGET p c :: k.trace W s
  | .routeRun a k, s => .routeRun a :: k.trace W s

/-- The state of the world when the program has returned. -/
def Prog.finalState {σ : Type} (W : World σ) : Prog → σ → σ
  | .done, s => s
  | .println _ k, s => k.finalState W s
  | .json _ _ k, s => k.finalState W s
  | .dial u k, s => (k (W.Dial u s).1).finalState W (W.Dial u s).2
  | .close cli k, s => k.finalState W (W.Close cli s)
  | .pendingNonceAt cli a k, s =>
      (k (W.PendingNonceAt cli a s).1).finalState W (W.PendingNonceAt cli a s).2
  | .newTransaction n rcpt amt gl gp d k, s =>
      (k (NewTransaction n rcpt amt gl gp d)).finalState W s
  | .signWithKeys tx sg ks k, s =>
      (k (signedResult tx (W.SignWithKeys tx sg ks s).1)).finalState W
        (W.SignWithKeys tx sg ks s).2
  | .sendRawTransaction cli tx k, s =>
      (k (W.SendRawTransaction cli tx s).1).finalState W (W.SendRawTransaction cli tx s).2
  | .ginDefault k, s => k.finalState W s
  | .routeGET _ _ k, s => k.finalState W s
  | .routeRun _ k, s => k.finalState W s

/-- Whether the program has returned. -/
def Prog.isDone : Prog → Bool
  | .done => true
  | _ => false

/-! ## The program of `src/main.go` -/

/-- The closure registered for `GET /faucet/:address` (main.go lines 62-111).  The context
`ctx` passed to the node calls is `context.Background()` throughout and is left out. -/
def faucetHandler (lib : Lib) (cap : Captured) (c : Context) : Prog :=
  -- Parse to address
  match c.ShouldBindUri with
  | .err err =>
      .json 400 (.msg err) (.println ("Error: " ++ err) .done)
  | .ok input =>
    if len input.Address ≠ 42 then
      .json 400 (.msg "invalid address format") .done
    else
      let toAddr := lib.HexToAddress input.Address
      -- Dial to an endpoint
      .dial cap.endpoint fun
        | .err err =>
            .json 500 (.msg "failed to connect to a Klaytn node")
              (.println ("Error: " ++ err) .done)
        | .ok cli =>
          withDefer (.close cli .done) <|
            -- Get a nonce of the sender
            .pendingNonceAt cli cap.faucetAddr fun
              | .err err =>
                  .json 500 (.msg "failed to get a pending nonce")
                    (.println ("Error: " ++ err) .done)
              | .ok senderNonce =>
                -- Make a transaction
                .newTransaction senderNonce toAddr (5 * (KLAY : Int)) 50000
                    (25 * (Ston : Int)) [] fun tx =>
                  .signWithKeys tx cap.signer [cap.faucetPrvKey] fun
                    | .err err =>
                        .json 500 (.msg "fail to sign transaction with the faucet account")
                          (.println ("Error: " ++ err) .done)
                    | .ok tx =>
                      -- Send the transaction
                      .sendRawTransaction cli tx fun
                        | .err err =>
                            .json 500 (.msg "fail to send a transaction")
                              (.println ("Error: " ++ err) .done)
                        | .ok txHash =>
                            .json 200 (.txHash txHash) .done

/-- The function `main` (main.go lines 22-113), with `os.Args` as its argument.  The three
arguments are read where the list has length 4, so the default of `getD` is never used. -/
def main (lib : Lib) (Args : List String) : Prog :=
  -- Parse args
  if Args.length ≠ 4 then
    .println "Usage: ./faucet [chainID] [endpoint] [faucet private key without 0x]"
      (.println ("len(os.Args): " ++ toString Args.length) .done)
  else
    let chainIdString := Args.getD 1 ""
    let endpoint := Args.getD 2 ""
    let faucetPrvKeyString := Args.getD 3 ""
    -- Prepare a signer
    match lib.Atoi chainIdString with
    | .err err =>
        .println "Invalid chainID" (.println ("Error:" ++ err) .done)
    | .ok chainId =>
      let signer := NewEIP155Signer chainId
      -- Check connectivity with a node
      .dial endpoint fun
        | .err err =>
            .println "Invalid endpoint. Use the endpoint such as http://127.0.0.1:8551"
              (.println ("Error:" ++ err) .done)
        | .ok cli =>
          .close cli <|
            -- Prepare a faucet
            match lib.HexToECDSA faucetPrvKeyString with
            | .err err =>
                .println "Invalid faucet private key" (.println ("Error:" ++ err) .done)
            | .ok faucetPrvKey =>
              let faucetAddr := lib.PubkeyToAddress faucetPrvKey
              .println ("Faucet Address:  " ++ lib.AddressString faucetAddr) <|
                .ginDefault <|
                  .routeGET "/faucet/:address"
                      { endpoint := endpoint, signer := signer,
                        faucetPrvKey := faucetPrvKey, faucetAddr := faucetAddr } <|
                    .routeRun ":80" .done

/-- The trace of one request served from state `s`. -/
def handlerTrace {σ : Type} (lib : Lib) (W : World σ) (cap : Captured) (c : Context)
    (s : σ) : List Event :=
  (faucetHandler lib cap c).trace W s

/-- The trace of `main` started with the arguments `Args` in state `s`. -/
def mainTrace {σ : Type} (lib : Lib) (W : World σ) (Args : List String) (s : σ) :
    List Event :=
  (main lib Args).trace W s

/-- The unsigned transaction the handler builds for nonce `n` and the request's address. -/
def faucetTx (lib : Lib) (n : Nat) (address : String) : Transaction :=
  NewTransaction n (lib.HexToAddress address) (5 * (KLAY : Int)) 50000 (25 * (Ston : Int)) []

/-! ## Reading a trace -/

/-- The responses written with `c.JSON`, as (status, body), in order. -/
def responses : List Event → List (Nat × H)
  | [] => []
  | .json code obj :: t => (code, obj) :: responses t
  | _ :: t => responses t

/-- Whether the event is a call to the node client: connect, nonce fetch, submission, close. -/
def Event.isNodeCall : Event → Bool
  | .dial _ _ => true
  | .close _ => true
  | .pendingNonceAt _ _ _ => true
  | .sendRawTransaction _ _ _ => true
  | _ => false

/-- The calls to the node client, in order. -/
def nodeCalls (t : List Event) : List Event := t.filter Event.isNodeCall

/-- The transactions passed to `SendRawTransaction`, in order. -/
def submitted : List Event → List Transaction
  | [] => []
  | .sendRawTransaction _ tx _ :: t => tx :: submitted t
  | _ :: t => submitted t

/-- The transactions built with `NewTransaction`, in order. -/
def built : List Event → List Transaction
  | [] => []
  | .newTransaction tx :: t => tx :: built t
  | _ :: t => built t

/-- The calls of `SignWithKeys`, in order: the transaction, the signer and the keys. -/
def signings : List Event → List (Transaction × EIP155Signer × List PrivateKey)
  | [] => []
  | .signWithKeys tx sg ks _ :: t => (tx, sg, ks) :: signings t
  | _ :: t => signings t

/-- The connections closed with `Close`, in order. -/
def closed : List Event → List Client
  | [] => []
  | .close cli :: t => cli :: closed t
  | _ :: t => closed t

/-- The connections opened by a successful `Dial`, in order. -/
def opened : List Event → List Client
  | [] => []
  | .dial _ (.ok cli) :: t => cli :: opened t
  | _ :: t => opened t

/-- The lines printed with `fmt.Println`, in order. -/
def printed : List Event → List String
  | [] => []
  | .println l :: t => l :: printed t
  | _ :: t => printed t

/-- The step an event performs, with whether it succeeded; `none` for the other events. -/
def Event.step? : Event → Option (Step × Bool)
  | .dial _ r => some (.connect, !r.isErr)
  | .pendingNonceAt _ _ r => some (.nonceFetch, !r.isErr)
  | .signWithKeys _ _ _ r => some (.sign, !r.isErr)
  | .sendRawTransaction _ _ r => some (.submit, !r.isErr)
  | _ => none

/-- The steps performed in a trace, in order, each with whether it succeeded. -/
def steps (t : List Event) : List (Step × Bool) := t.filterMap Event.step?

/-- The first step of a trace that failed, if any. -/
def failedStep (t : List Event) : Option Step :=
  ((steps t).find? (fun p => !p.2)).map Prod.fst

/-- The body the handler answers with when a step fails. -/
def failureBody : Step → H
  | .connect => .msg "failed to connect to a Klaytn node"
  | .nonceFetch => .msg "failed to get a pending nonce"
  | .sign => .msg "fail to sign transaction with the faucet account"
  | .submit => .msg "fail to send a transaction"

/-- The four fixed bodies of a 500 response. -/
def failureBodies : List H :=
  [.msg "failed to connect to a Klaytn node", .msg "failed to get a pending nonce",
    .msg "fail to sign transaction with the faucet account", .msg "fail to send a transaction"]

/-- The first line `main` prints on each of its four startup failures. -/
def startupDiagnostics : List String :=
  ["Usage: ./faucet [chainID] [endpoint] [faucet private key without 0x]",
    "Invalid chainID",
    "Invalid endpoint. Use the endpoint such as http://127.0.0.1:8551",
    "Invalid faucet private key"]

/-- The address format of the specification: `0x` followed by 40 hexadecimal digits. -/
def specWellFormedAddress (address : String) : Bool :=
  address.data.length == 42 && address.data.take 2 == ['0', 'x'] &&
    (address.data.drop 2).all fun ch =>
      (48 ≤ ch.toNat && ch.toNat ≤ 57) || (97 ≤ ch.toNat && ch.toNat ≤ 102) ||
        (65 ≤ ch.toNat && ch.toNat ≤ 70)

/-- Whether the binding of the request succeeds with an address string of length 42. -/
def Context.lengthOk (c : Context) : Bool :=
  match c.ShouldBindUri with
  | .ok input => len input.Address == 42
  | .err _ => false

/-! ## Requests served concurrently -/

/-- Requests served concurrently, each by its own program, against one world: `sched` lists
which request makes the next call (an entry naming no request, or one that has returned,
is skipped).  The result is the calls made, each with the index of its request. -/
def runSchedule {σ : Type} (W : World σ) : List Nat → List Prog → σ → List (Nat × Event)
  | [], _, _ => []
  | i :: sched, ps, s =>
    match ps[i]? with
    | none => runSchedule W sched ps s
    | some p =>
      match p.step W s with
      | none => runSchedule W sched ps s
      | some (e, p', s') => (i, e) :: runSchedule W sched (ps.set i p') s'

/-- What is left of each program when the schedule is exhausted. -/
def afterSchedule {σ : Type} (W : World σ) : List Nat → List Prog → σ → List Prog
  | [], ps, _ => ps
  | i :: sched, ps, s =>
    match ps[i]? with
    | none => afterSchedule W sched ps s
    | some p =>
      match p.step W s with
      | none => afterSchedule W sched ps s
      | some (_, p', s') => afterSchedule W sched (ps.set i p') s'

/-- Whether no two critical sections overlap.  A request is in its critical section from
its nonce fetch to its submission, or to its response when it fails in between; `holder`
is the request currently in its section. -/
def sectionsDisjoint : Option Nat → List (Nat × Event) → Bool
  | _, [] => true
  | holder, (i, .pendingNonceAt _ _ _) :: t => holder.isNone && sectionsDisjoint (some i) t
  | holder, (i, .sendRawTransaction _ _ _) :: t =>
      sectionsDisjoint (if holder = some i then none else holder) t
  | holder, (i, .json _ _) :: t =>
      sectionsDisjoint (if holder = some i then none else holder) t
  | holder, _ :: t => sectionsDisjoint holder t

/-- The nonces of the transactions submitted, in the order of submission. -/
def usedNonces : List (Nat × Event) → List Nat
  | [] => []
  | (_, .sendRawTransaction _ tx _) :: t => tx.nonce :: usedNonces t
  | _ :: t => usedNonces t

/-- The responses written, each with the index of its request. -/
def taggedResponses : List (Nat × Event) → List (Nat × Nat × H)
  | [] => []
  | (i, .json code obj) :: t => (i, code, obj) :: taggedResponses t
  | _ :: t => taggedResponses t

/-- A world in which an issuance always goes through, with `pending` reading the pending
nonce of the faucet account off its state: every connection is accepted, every
pending-nonce fetch is answered with the pending nonce, every signing succeeds, a
submission that carries the pending nonce is accepted and advances the pending nonce by
one, and no other call changes the pending nonce. -/
structure AdvancingNode {σ : Type} (W : World σ) (pending : σ → Nat) : Prop where
  dial_ok : ∀ rawurl s, ∃ cli, (W.Dial rawurl s).1 = .ok cli
  dial_pending : ∀ rawurl s, pending (W.Dial rawurl s).2 = pending s
  close_pending : ∀ cli s, pending (W.Close cli s) = pending s
  nonce_ok : ∀ cli account s, (W.PendingNonceAt cli account s).1 = .ok (pending s)
  nonce_pending : ∀ cli account s, pending (W.PendingNonceAt cli account s).2 = pending s
  sign_ok : ∀ tx signer keys s, ∃ sigs, (W.SignWithKeys tx signer keys s).1 = .ok sigs
  sign_pending : ∀ tx signer keys s, pending (W.SignWithKeys tx signer keys s).2 = pending s
  send_ok : ∀ cli tx s, tx.nonce = pending s →
    ∃ h, (W.SendRawTransaction cli tx s).1 = .ok h
  send_pending : ∀ cli tx s, tx.nonce = pending s →
    pending (W.SendRawTransaction cli tx s).2 = pending s + 1

/-- The schedule that serves `n` requests one at a time, starting with request `i`: eight
turns for each, as many as the longest path of the handler has calls. -/
def oneAtATime : Nat → Nat → List Nat
  | _, 0 => []
  | i, n + 1 => List.replicate 8 i ++ oneAtATime (i + 1) n

/-- Requests served one after another, the first with index `i`: each handler runs from
the state the previous one left. -/
def servedInTurn {σ : Type} (lib : Lib) (W : World σ) (cap : Captured) :
    Nat → List Context → σ → List (Nat × Event)
  | _, [], _ => []
  | i, c :: cs, s =>
      (handlerTrace lib W cap c s).map (Prod.mk i) ++
        servedInTurn lib W cap (i + 1) cs ((faucetHandler lib cap c).finalState W s)

/-! ## A sample environment for the scenarios -/

/-- The value of a hexadecimal digit (0 for any other character). -/
def hexVal (ch : Char) : Nat :=
  let n := ch.toNat
  if 48 ≤ n ∧ n ≤ 57 then n - 48
  else if 97 ≤ n ∧ n ≤ 102 then n - 87
  else if 65 ≤ n ∧ n ≤ 70 then n - 55
  else 0

/-- The bytes written by a list of hexadecimal digits, two digits a byte. -/
def hexBytes : List Char → List Nat
  | a :: b :: t => (16 * hexVal a + hexVal b) :: hexBytes t
  | _ => []

/-- A sample library for the scenarios: it knows one chain identifier and one key, and reads
an address as the bytes after the two-character prefix. -/
def sampleLib : Lib where
  Atoi := fun str => if str = "1001" then .ok 1001 else .err "invalid syntax"
  HexToECDSA := fun str => if str = "01" then .ok ⟨1⟩ else .err "invalid hex string"
  PubkeyToAddress := fun key => ⟨[key.D]⟩
  HexToAddress := fun str => ⟨hexBytes (str.data.drop 2)⟩
  AddressString := fun _ => "0xfaucet"

/-- A sample node whose state is the pending nonce of the faucet account.  It reports that
nonce, accepts a transaction that carries it, advancing it by one, and refuses any other;
`failAt` makes one kind of call fail with the text `errText` instead. -/
def sampleNode (failAt : Option Step) (errText : String) : World Nat where
  Dial := fun _ s =>
    if failAt = some .connect then (.err errText, s) else (.ok ⟨1⟩, s)
  Close := fun _ s => s
  PendingNonceAt := fun _ _ s =>
    if failAt = some .nonceFetch then (.err errText, s) else (.ok s, s)
  SignWithKeys := fun tx signer keys s =>
    if failAt = some .sign then (.err errText, s)
    else (.ok (keys.map fun key => ⟨signer.chainId.toNat, key.D, tx.nonce⟩), s)
  SendRawTransaction := fun _ tx s =>
    if failAt = some .submit then (.err errText, s)
    else if tx.nonce = s then (.ok ⟨[tx.nonce]⟩, s + 1)
    else (.err "nonce too low", s)

/-- The captured variables of the scenario: chain identifier 1001 and the sample key. -/
def sampleCaptured : Captured where
  endpoint := "http://127.0.0.1:8551"
  signer := NewEIP155Signer 1001
  faucetPrvKey := ⟨1⟩
  faucetAddr := ⟨[1]⟩

/-- A request whose path parameter bound to `address`. -/
def requestFor (address : String) : Context := ⟨.ok ⟨address⟩⟩

/-- A well-formed address: `0x` and forty times `A`. -/
def addrA : String := "0xAAAAAAAAAAAAAAAAAAAAAAAAAAAAAAAAAAAAAAAA"

/-- Another well-formed address: `0x` and forty times `B`. -/
def addrB : String := "0xBBBBBBBBBBBBBBBBBBBBBBBBBBBBBBBBBBBBBBBB"

/-- A 42-character string that is no hexadecimal number: `0x` and forty times `Z`. -/
def addrZ : String := "0xZZZZZZZZZZZZZZZZZZZZZZZZZZZZZZZZZZZZZZZZ"

/-- An address one character short: `0x` and thirty-nine times `A`, 41 characters. -/
def addrShort : String := "0xAAAAAAAAAAAAAAAAAAAAAAAAAAAAAAAAAAAAAAA"

/-! ## The shape of every trace of the handler -/

/-- Every run of the handler follows one of seven paths, each with a fixed trace. -/
theorem handlerTrace_cases {σ : Type} (lib : Lib) (W : World σ) (cap : Captured)
    (c : Context) (s : σ) :
    (∃ e, c.ShouldBindUri = .err e ∧
      handlerTrace lib W cap c s = [.json 400 (.msg e), .println ("Error: " ++ e)]) ∨
    (∃ input, c.ShouldBindUri = .ok input ∧ len input.Address ≠ 42 ∧
      handlerTrace lib W cap c s = [.json 400 (.msg "invalid address format")]) ∨
    (∃ input e, c.ShouldBindUri = .ok input ∧ len input.Address = 42 ∧
      handlerTrace lib W cap c s =
        [.dial cap.endpoint (.err e), .json 500 (.msg "failed to connect to a Klaytn node"),
          .println ("Error: " ++ e)]) ∨
    (∃ input cli e, c.ShouldBindUri = .ok input ∧ len input.Address = 42 ∧
      handlerTrace lib W cap c s =
        [.dial cap.endpoint (.ok cli), .pendingNonceAt cli cap.faucetAddr (.err e),
          .json 500 (.msg "failed to get a pending nonce"), .println ("Error: " ++ e),
          .close cli]) ∨
    (∃ input cli n e, c.ShouldBindUri = .ok input ∧ len input.Address = 42 ∧
      handlerTrace lib W cap c s =
        [.dial cap.endpoint (.ok cli), .pendingNonceAt cli cap.faucetAddr (.ok n),
          .newTransaction (faucetTx lib n input.Address),
          .signWithKeys (faucetTx lib n input.Address) cap.signer [cap.faucetPrvKey] (.err e),
          .json 500 (.msg "fail to sign transaction with the faucet account"),
          .println ("Error: " ++ e), .close cli]) ∨
    (∃ input cli n sigs e, c.ShouldBindUri = .ok input ∧ len input.Address = 42 ∧
      handlerTrace lib W cap c s =
        [.dial cap.endpoint (.ok cli), .pendingNonceAt cli cap.faucetAddr (.ok n),
          .newTransaction (faucetTx lib n input.Address),
          .signWithKeys (faucetTx lib n input.Address) cap.signer [cap.faucetPrvKey] (.ok sigs),
          .sendRawTransaction cli
            { faucetTx lib n input.Address with signatures := some sigs } (.err e),
          .json 500 (.msg "fail to send a transaction"),
          .println ("Error: " ++ e), .close cli]) ∨
    (∃ input cli n sigs h, c.ShouldBindUri = .ok input ∧ len input.Address = 42 ∧
      handlerTrace lib W cap c s =
        [.dial cap.endpoint (.ok cli), .pendingNonceAt cli cap.faucetAddr (.ok n),
          .newTransaction (faucetTx lib n input.Address),
          .signWithKeys (faucetTx lib n input.Address) cap.signer [cap.faucetPrvKey] (.ok sigs),
          .sendRawTransaction cli
            { faucetTx lib n input.Address with signatures := some sigs } (.ok h),
          .json 200 (.txHash h), .close cli]) := by
  unfold handlerTrace faucetHandler
  cases hb : c.ShouldBindUri with
  | err e => left; exact ⟨e, rfl, by simp [Prog.trace]⟩
  | ok input =>
    right
    by_cases hl : len input.Address = 42
    · right
      simp only [hl, ne_eq, not_true_eq_false, if_false]
      cases h1 : (W.Dial cap.endpoint s).1 with
      | err e =>
        left
        exact ⟨input, e, rfl, hl, by simp [Prog.trace, h1]⟩
      | ok cli =>
        right
        cases h2 : (W.PendingNonceAt cli cap.faucetAddr (W.Dial cap.endpoint s).2).1 with
        | err e =>
          left
          exact ⟨input, cli, e, rfl, hl, by simp [Prog.trace, Prog.seq, withDefer, h1, h2]⟩
        | ok n =>
          right
          cases h3 : (W.SignWithKeys (faucetTx lib n input.Address) cap.signer
              [cap.faucetPrvKey]
              (W.PendingNonceAt cli cap.faucetAddr (W.Dial cap.endpoint s).2).2).1 with
          | err e =>
            left
            refine ⟨input, cli, n, e, rfl, hl, ?_⟩
            simp only [faucetTx] at h3
            simp [Prog.trace, Prog.seq, withDefer, h1, h2, h3, faucetTx, signedResult]
          | ok sigs =>
            right
            simp only [faucetTx] at h3
            cases h4 : (W.SendRawTransaction cli
                { faucetTx lib n input.Address with signatures := some sigs }
                (W.SignWithKeys (faucetTx lib n input.Address) cap.signer
                  [cap.faucetPrvKey]
                  (W.PendingNonceAt cli cap.faucetAddr (W.Dial cap.endpoint s).2).2).2).1 with
            | err e =>
              left
              refine ⟨input, cli, n, sigs, e, rfl, hl, ?_⟩
              simp only [faucetTx] at h4
              simp [Prog.trace, Prog.seq, withDefer, h1, h2, h3, h4, faucetTx, signedResult]
            | ok h =>
              right
              refine ⟨input, cli, n, sigs, h, rfl, hl, ?_⟩
              simp only [faucetTx] at h4
              simp [Prog.trace, Prog.seq, withDefer, h1, h2, h3, h4, faucetTx, signedResult]
    · left
      exact ⟨input, rfl, hl, by simp [hl, Prog.trace]⟩

/-- Every trace of the handler has at most eight calls. -/
theorem handlerTrace_length_le {σ : Type} (lib : Lib) (W : World σ) (cap : Captured)
    (c : Context) (s : σ) : (handlerTrace lib W cap c s).length ≤ 8 := by
  rcases handlerTrace_cases lib W cap c s with
    ⟨e, _, ht⟩ | ⟨i, _, _, ht⟩ | ⟨i, e, _, _, ht⟩ | ⟨i, cli, e, _, _, ht⟩ |
    ⟨i, cli, m, e, _, _, ht⟩ | ⟨i, cli, m, sg, e, _, _, ht⟩ | ⟨i, cli, m, sg, h', _, _, ht⟩
  all_goals rw [ht]
  all_goals simp

/-! ## Schedules and traces -/

/-- A program that cannot make a call has returned. -/
theorem Prog.eq_done_of_step_none {σ : Type} (W : World σ) (p : Prog) (s : σ)
    (h : p.step W s = none) : p = .done := by
  cases p <;> simp [Prog.step] at h ⊢

/-- One call is the head of the trace; the rest of the program gives the rest. -/
theorem Prog.trace_of_step {σ : Type} (W : World σ) (p p' : Prog) (e : Event) (s s' : σ)
    (h : p.step W s = some (e, p', s')) :
    p.trace W s = e :: p'.trace W s' ∧ p.finalState W s = p'.finalState W s' := by
  cases p <;> simp [Prog.step] at h <;> obtain ⟨rfl, rfl, rfl⟩ := h <;>
    simp [Prog.trace, Prog.finalState]

/-- Writing back the element already there changes nothing. -/
theorem set_eq_self_of_getElem? {α : Type} :
    ∀ (l : List α) (i : Nat) (a : α), l[i]? = some a → l.set i a = l
  | [], _, _, h => by simp at h
  | b :: l, 0, a, h => by
      simp at h
      simp [h]
  | b :: l, i + 1, a, h => by
      simp at h
      simp [set_eq_self_of_getElem? l i a h]

/-- Giving request `i` as many consecutive turns as its program has calls runs that
program to its return, as `Prog.trace` does, and leaves the other programs untouched. -/
theorem runSchedule_replicate {σ : Type} (W : World σ) (i : Nat) (sched : List Nat) :
    ∀ (k : Nat) (p : Prog) (ps : List Prog) (s : σ), ps[i]? = some p →
      (p.trace W s).length ≤ k →
      runSchedule W (List.replicate k i ++ sched) ps s =
        (p.trace W s).map (Prod.mk i) ++
          runSchedule W sched (ps.set i .done) (p.finalState W s)
  | 0, p, ps, s, hp, hk => by
      have ht : p.trace W s = [] := List.length_eq_zero.mp (Nat.le_zero.mp hk)
      have hd : p = .done := by
        cases hs : p.step W s with
        | none => exact Prog.eq_done_of_step_none W p s hs
        | some r =>
          obtain ⟨e, p', s'⟩ := r
          rw [(Prog.trace_of_step W p p' e s s' hs).1] at ht
          exact absurd ht (by simp)
      subst hd
      simp [Prog.trace, Prog.finalState, set_eq_self_of_getElem? ps i .done hp]
  | k + 1, p, ps, s, hp, hk => by
      cases hs : p.step W s with
      | none =>
        have hd : p = .done := Prog.eq_done_of_step_none W p s hs
        subst hd
        have ih := runSchedule_replicate W i sched k .done ps s hp (by simp [Prog.trace])
        simp only [List.replicate_succ, List.cons_append, runSchedule, hp, hs]
        exact ih
      | some r =>
        obtain ⟨e, p', s'⟩ := r
        obtain ⟨ht, hf⟩ := Prog.trace_of_step W p p' e s s' hs
        have hi : i < ps.length := by
          rcases List.getElem?_eq_some.mp hp with ⟨h, _⟩
          exact h
        have ih := runSchedule_replicate W i sched k p' (ps.set i p') s'
          (by simp [hi]) (by rw [ht] at hk; simpa using hk)
        simp only [List.replicate_succ, List.cons_append, runSchedule, hp, hs,
          List.append_eq]
        rw [ih, ht, hf, List.set_set]
        simp

/-- The one-at-a-time schedule serves the requests in turn. -/
theorem runSchedule_oneAtATime {σ : Type} (lib : Lib) (W : World σ) (cap : Captured) :
    ∀ (cs : List Context) (pre : List Prog) (s : σ),
      runSchedule W (oneAtATime pre.length cs.length)
          (pre ++ cs.map (faucetHandler lib cap)) s =
        servedInTurn lib W cap pre.length cs s
  | [], pre, s => by simp [oneAtATime, runSchedule, servedInTurn]
  | c :: cs, pre, s => by
      have hp : (pre ++ (c :: cs).map (faucetHandler lib cap))[pre.length]? =
          some (faucetHandler lib cap c) := by
        rw [List.getElem?_append_right (Nat.le_refl _)]
        simp
      have h := runSchedule_replicate W pre.length (oneAtATime (pre.length + 1) cs.length) 8
        (faucetHandler lib cap c) (pre ++ (c :: cs).map (faucetHandler lib cap)) s hp
        (handlerTrace_length_le lib W cap c s)
      have ih := runSchedule_oneAtATime lib W cap cs (pre ++ [.done])
        ((faucetHandler lib cap c).finalState W s)
      simp only [List.length_append, List.length_singleton, List.append_assoc,
        List.singleton_append] at ih
      simp only [List.length_cons, oneAtATime, servedInTurn, handlerTrace]
      rw [h]
      simp only [List.map_cons, List.set_append_right _ _ (Nat.le_refl _), Nat.sub_self,
        List.set_cons_zero]
      rw [ih]

/-- A whole run of the handler leaves no request inside its critical section. -/
theorem sectionsDisjoint_handlerTrace_append {σ : Type} (lib : Lib) (W : World σ)
    (cap : Captured) (c : Context) (s : σ) (i : Nat) (rest : List (Nat × Event)) :
    sectionsDisjoint none ((handlerTrace lib W cap c s).map (Prod.mk i) ++ rest) =
      sectionsDisjoint none rest := by
  rcases handlerTrace_cases lib W cap c s with
    ⟨e, _, ht⟩ | ⟨j, _, _, ht⟩ | ⟨j, e, _, _, ht⟩ | ⟨j, cli, e, _, _, ht⟩ |
    ⟨j, cli, m, e, _, _, ht⟩ | ⟨j, cli, m, sg, e, _, _, ht⟩ | ⟨j, cli, m, sg, h', _, _, ht⟩
  all_goals rw [ht]
  all_goals simp [sectionsDisjoint]

/-- Requests served in turn never overlap, in any world. -/
theorem sectionsDisjoint_servedInTurn {σ : Type} (lib : Lib) (W : World σ) (cap : Captured) :
    ∀ (cs : List Context) (i : Nat) (s : σ),
      sectionsDisjoint none (servedInTurn lib W cap i cs s) = true
  | [], _, _ => by simp [servedInTurn, sectionsDisjoint]
  | c :: cs, i, s => by
      rw [servedInTurn, sectionsDisjoint_handlerTrace_append]
      exact sectionsDisjoint_servedInTurn lib W cap cs (i + 1) _

/-- The trace and the final state of a request whose four steps all succeed. -/
theorem handlerTrace_of_success {σ : Type} (lib : Lib) (W : World σ) (cap : Captured)
    (c : Context) (s s1 s2 s3 s4 : σ) (input : UriInput) (cli : Client) (n : Nat)
    (sigs : TxSignatures) (h : Hash)
    (hbind : c.ShouldBindUri = .ok input) (hlen : len input.Address = 42)
    (hconnect : W.Dial cap.endpoint s = (.ok cli, s1))
    (hnonce : W.PendingNonceAt cli cap.faucetAddr s1 = (.ok n, s2))
    (hsign : W.SignWithKeys (faucetTx lib n input.Address) cap.signer [cap.faucetPrvKey] s2 =
      (.ok sigs, s3))
    (hsubmit : W.SendRawTransaction cli
        { faucetTx lib n input.Address with signatures := some sigs } s3 = (.ok h, s4)) :
    handlerTrace lib W cap c s =
        [.dial cap.endpoint (.ok cli), .pendingNonceAt cli cap.faucetAddr (.ok n),
          .newTransaction (faucetTx lib n input.Address),
          .signWithKeys (faucetTx lib n input.Address) cap.signer [cap.faucetPrvKey] (.ok sigs),
          .sendRawTransaction cli
            { faucetTx lib n input.Address with signatures := some sigs } (.ok h),
          .json 200 (.txHash h), .close cli] ∧
      (faucetHandler lib cap c).finalState W s = W.Close cli s4 := by
  simp [faucetTx, NewTransaction, KLAY, Ston] at hsign hsubmit
  constructor
  · simp [handlerTrace, faucetHandler, hbind, hlen, Prog.trace, Prog.seq, withDefer,
      hconnect, hnonce, hsign, hsubmit, signedResult, faucetTx, NewTransaction, KLAY, Ston]
  · simp [faucetHandler, hbind, hlen, Prog.finalState, Prog.seq, withDefer,
      hconnect, hnonce, hsign, hsubmit, signedResult, faucetTx, NewTransaction, KLAY, Ston]

/-- In a world where an issuance always goes through, a request with an address of length
42 submits with the pending nonce and leaves the pending nonce advanced by one. -/
theorem advancingNode_serves_one {σ : Type} (lib : Lib) (W : World σ) (pending : σ → Nat)
    (hW : AdvancingNode W pending) (cap : Captured) (c : Context) (s : σ) (i : Nat)
    (rest : List (Nat × Event)) (hc : c.lengthOk = true) :
    usedNonces ((handlerTrace lib W cap c s).map (Prod.mk i) ++ rest) =
        pending s :: usedNonces rest ∧
      pending ((faucetHandler lib cap c).finalState W s) = pending s + 1 := by
  obtain ⟨input, hb, hl⟩ : ∃ input, c.ShouldBindUri = .ok input ∧ len input.Address = 42 := by
    unfold Context.lengthOk at hc
    cases hb : c.ShouldBindUri with
    | err e => simp [hb] at hc
    | ok input => exact ⟨input, rfl, by simpa [hb] using hc⟩
  obtain ⟨cli, h1⟩ := hW.dial_ok cap.endpoint s
  have p1 := hW.dial_pending cap.endpoint s
  have h2 := hW.nonce_ok cli cap.faucetAddr (W.Dial cap.endpoint s).2
  have p2 := hW.nonce_pending cli cap.faucetAddr (W.Dial cap.endpoint s).2
  rw [p1] at h2 p2
  obtain ⟨sigs, h3⟩ := hW.sign_ok (faucetTx lib (pending s) input.Address) cap.signer
    [cap.faucetPrvKey] (W.PendingNonceAt cli cap.faucetAddr (W.Dial cap.endpoint s).2).2
  have p3 := hW.sign_pending (faucetTx lib (pending s) input.Address) cap.signer
    [cap.faucetPrvKey] (W.PendingNonceAt cli cap.faucetAddr (W.Dial cap.endpoint s).2).2
  rw [p2] at p3
  have hn : ({ faucetTx lib (pending s) input.Address with signatures := some sigs } :
      Transaction).nonce = pending (W.SignWithKeys (faucetTx lib (pending s) input.Address)
        cap.signer [cap.faucetPrvKey]
        (W.PendingNonceAt cli cap.faucetAddr (W.Dial cap.endpoint s).2).2).2 := by
    rw [p3]
    rfl
  obtain ⟨h, h4⟩ := hW.send_ok cli _ _ hn
  have p4 := hW.send_pending cli _ _ hn
  rw [p3] at p4
  obtain ⟨ht, hf⟩ := handlerTrace_of_success lib W cap c s _ _ _ _ input cli (pending s) sigs h
    hb hl (Prod.ext h1 rfl) (Prod.ext h2 rfl) (Prod.ext h3 rfl) (Prod.ext h4 rfl)
  constructor
  · rw [ht]
    simp [usedNonces, faucetTx, NewTransaction]
  · rw [hf, hW.close_pending, p4]

/-- The sample node with no failure injected is a world where an issuance always goes
through; its state is the pending nonce. -/
theorem sampleNode_advancing : AdvancingNode (sampleNode none "") id where
  dial_ok := fun _ _ => ⟨⟨1⟩, rfl⟩
  dial_pending := fun _ _ => rfl
  close_pending := fun _ _ => rfl
  nonce_ok := fun _ _ _ => rfl
  nonce_pending := fun _ _ _ => rfl
  sign_ok := fun _ _ _ _ => ⟨_, rfl⟩
  sign_pending := fun _ _ _ _ => rfl
  send_ok := fun _ tx s h => ⟨⟨[tx.nonce]⟩, by simp [sampleNode, h]⟩
  send_pending := fun _ tx s h => by simp [sampleNode, h]

/-- In a world where an issuance always goes through, requests served in turn use
consecutive nonces, from the pending nonce of the initial state on. -/
theorem usedNonces_servedInTurn {σ : Type} (lib : Lib) (W : World σ) (pending : σ → Nat)
    (hW : AdvancingNode W pending) (cap : Captured) :
    ∀ (cs : List Context) (i : Nat) (s : σ), (∀ c ∈ cs, c.lengthOk = true) →
      usedNonces (servedInTurn lib W cap i cs s) = List.range' (pending s) cs.length
  | [], _, _, _ => by simp [servedInTurn, usedNonces]
  | c :: cs, i, s, h => by
      have hc : c.lengthOk = true := h c (List.mem_cons_self _ _)
      have hcs : ∀ d ∈ cs, d.lengthOk = true := fun d hd => h d (List.mem_cons_of_mem _ hd)
      obtain ⟨h1, h2⟩ := advancingNode_serves_one lib W pending hW cap c s i
        (servedInTurn lib W cap (i + 1) cs ((faucetHandler lib cap c).finalState W s)) hc
      rw [servedInTurn, h1, usedNonces_servedInTurn lib W pending hW cap cs (i + 1) _ hcs, h2]
      simp [List.range'_succ]

/-! ## The claims -/

/-- C1: for a request whose address string has length 42, when the node accepts the
connection, answers the pending-nonce fetch with `n`, the signing routine signs the
transaction and the node answers the submission with the hash `h`, the handler submits
exactly one transaction; it has nonce `n`, the recipient parsed from the request, amount
5 KLAY, gas limit 50000, gas price 25 Ston and an empty payload, and carries the
signatures returned by the one signing call, which is made on that transaction with the
faucet key and the configured signer; the only response is 200 with `txHash` equal to
`h`.  The hypotheses are about the answers of the world, in the states the calls reach. -/
theorem handler_success_submits_one_transfer {σ : Type} (lib : Lib) (W : World σ)
    (cap : Captured) (c : Context) (s s1 s2 s3 s4 : σ) (input : UriInput) (cli : Client)
    (n : Nat) (sigs : TxSignatures) (h : Hash)
    (hbind : c.ShouldBindUri = .ok input) (hlen : len input.Address = 42)
    (hconnect : W.Dial cap.endpoint s = (.ok cli, s1))
    (hnonce : W.PendingNonceAt cli cap.faucetAddr s1 = (.ok n, s2))
    (hsign : W.SignWithKeys (faucetTx lib n input.Address) cap.signer [cap.faucetPrvKey] s2 =
      (.ok sigs, s3))
    (hsubmit : W.SendRawTransaction cli
        { faucetTx lib n input.Address with signatures := some sigs } s3 = (.ok h, s4)) :
    submitted (handlerTrace lib W cap c s) =
        [{ nonce := n, recipient := lib.HexToAddress input.Address,
           amount := 5 * 10 ^ 18, gasLimit := 50000, gasPrice := 25 * 10 ^ 9, data := [],
           signatures := some sigs }] ∧
      signings (handlerTrace lib W cap c s) =
        [({ nonce := n, recipient := lib.HexToAddress input.Address,
            amount := 5 * 10 ^ 18, gasLimit := 50000, gasPrice := 25 * 10 ^ 9, data := [],
            signatures := none }, cap.signer, [cap.faucetPrvKey])] ∧
      responses (handlerTrace lib W cap c s) = [(200, .txHash h)] ∧
      steps (handlerTrace lib W cap c s) =
        [(.connect, true), (.nonceFetch, true), (.sign, true), (.submit, true)] := by
  simp [faucetTx, NewTransaction, KLAY, Ston] at hsign hsubmit
  simp [handlerTrace, faucetHandler, hbind, hlen, Prog.trace, Prog.seq, withDefer, hconnect,
    hnonce, hsign, hsubmit, signedResult, submitted, signings, responses, steps, Event.step?,
    Res.isErr, NewTransaction, KLAY, Ston]

/-- The scenario of C1: chain identifier 1001, pending nonce 7, address `0xAA…AA`. -/
theorem handler_success_submits_one_transfer_witness :
    submitted (handlerTrace sampleLib (sampleNode none "") sampleCaptured
          (requestFor addrA) 7) =
        [{ nonce := 7, recipient := ⟨List.replicate 20 170⟩,
           amount := 5 * 10 ^ 18, gasLimit := 50000, gasPrice := 25 * 10 ^ 9, data := [],
           signatures := some [⟨1001, 1, 7⟩] }] ∧
      signings (handlerTrace sampleLib (sampleNode none "") sampleCaptured
          (requestFor addrA) 7) =
        [({ nonce := 7, recipient := ⟨List.replicate 20 170⟩,
            amount := 5 * 10 ^ 18, gasLimit := 50000, gasPrice := 25 * 10 ^ 9, data := [],
            signatures := none }, NewEIP155Signer 1001, [⟨1⟩])] ∧
      responses (handlerTrace sampleLib (sampleNode none "") sampleCaptured
          (requestFor addrA) 7) = [(200, .txHash ⟨[7]⟩)] ∧
      steps (handlerTrace sampleLib (sampleNode none "") sampleCaptured
          (requestFor addrA) 7) =
        [(.connect, true), (.nonceFetch, true), (.sign, true), (.submit, true)] :=
  handler_success_submits_one_transfer sampleLib (sampleNode none "") sampleCaptured
    (requestFor addrA) 7 7 7 7 8 ⟨addrA⟩ ⟨1⟩ 7 [⟨1001, 1, 7⟩] ⟨[7]⟩ rfl (by decide)
    (by decide) (by decide) (by decide) (by decide)

/-- C2, refuted as stated: the address `0x` followed by forty `Z` is malformed (it has
non-hexadecimal characters), yet the handler does not reject it: it connects to the node,
fetches the nonce, submits a transaction and answers 200. -/
theorem handler_nonhex_address_reaches_node :
    specWellFormedAddress addrZ = false ∧
    steps (handlerTrace sampleLib (sampleNode none "") sampleCaptured
        (requestFor addrZ) 7) =
      [(.connect, true), (.nonceFetch, true), (.sign, true), (.submit, true)] ∧
    (nodeCalls (handlerTrace sampleLib (sampleNode none "") sampleCaptured
        (requestFor addrZ) 7)).length = 4 ∧
    responses (handlerTrace sampleLib (sampleNode none "") sampleCaptured
        (requestFor addrZ) 7) = [(200, .txHash ⟨[7]⟩)] := by
  decide

/-- C2, amended: the handler rejects with status 400, before any node interaction, exactly
the requests whose binding fails or whose address string has a length other than 42; for
an address string of length 42, whatever its characters, its first call is the connection
to the node and it never answers 400. -/
theorem handler_rejects_exactly_on_length {σ : Type} (lib : Lib) (W : World σ)
    (cap : Captured) (c : Context) (s : σ) :
    (∀ e, c.ShouldBindUri = .err e →
      responses (handlerTrace lib W cap c s) = [(400, .msg e)] ∧
      nodeCalls (handlerTrace lib W cap c s) = []) ∧
    (∀ input, c.ShouldBindUri = .ok input → len input.Address ≠ 42 →
      responses (handlerTrace lib W cap c s) = [(400, .msg "invalid address format")] ∧
      nodeCalls (handlerTrace lib W cap c s) = []) ∧
    (∀ input, c.ShouldBindUri = .ok input → len input.Address = 42 →
      (∃ r, (handlerTrace lib W cap c s).head? = some (.dial cap.endpoint r)) ∧
      ∀ r ∈ responses (handlerTrace lib W cap c s), r.1 ≠ 400) := by
  rcases handlerTrace_cases lib W cap c s with
    ⟨e, hb, ht⟩ | ⟨i, hb, hl, ht⟩ | ⟨i, e, hb, hl, ht⟩ | ⟨i, cli, e, hb, hl, ht⟩ |
    ⟨i, cli, m, e, hb, hl, ht⟩ | ⟨i, cli, m, sg, e, hb, hl, ht⟩ |
    ⟨i, cli, m, sg, h', hb, hl, ht⟩
  all_goals rw [ht, hb]
  all_goals refine ⟨?_, ?_, ?_⟩
  all_goals intro x hx
  all_goals cases hx
  all_goals simp [responses, nodeCalls, Event.isNodeCall]
  all_goals exact hl

/-- The scenario of C2 as amended: an address of length 41 on one side, a 42-character
address with no hexadecimal digit on the other. -/
theorem handler_rejects_exactly_on_length_witness :
    (responses (handlerTrace sampleLib (sampleNode none "") sampleCaptured
          (requestFor addrShort) 7) = [(400, .msg "invalid address format")] ∧
      nodeCalls (handlerTrace sampleLib (sampleNode none "") sampleCaptured
          (requestFor addrShort) 7) = []) ∧
    ((∃ r, (handlerTrace sampleLib (sampleNode none "") sampleCaptured
          (requestFor addrZ) 7).head? = some (.dial "http://127.0.0.1:8551" r)) ∧
      ∀ r ∈ responses (handlerTrace sampleLib (sampleNode none "") sampleCaptured
          (requestFor addrZ) 7), r.1 ≠ 400) :=
  ⟨(handler_rejects_exactly_on_length sampleLib (sampleNode none "") sampleCaptured
      (requestFor addrShort) 7).2.1 ⟨addrShort⟩ rfl (by decide),
    (handler_rejects_exactly_on_length sampleLib (sampleNode none "") sampleCaptured
      (requestFor addrZ) 7).2.2 ⟨addrZ⟩ rfl (by decide)⟩

/-- C3: for every request whose address string has a length other than 42, the handler
answers 400 with `msg` "invalid address format" and makes no call to the node client: no
connect, no nonce fetch, no submission, no close. -/
theorem handler_wrong_length_rejected_without_node_call {σ : Type} (lib : Lib)
    (W : World σ) (cap : Captured) (c : Context) (s : σ) (input : UriInput)
    (hbind : c.ShouldBindUri = .ok input) (hlen : len input.Address ≠ 42) :
    responses (handlerTrace lib W cap c s) = [(400, .msg "invalid address format")] ∧
      nodeCalls (handlerTrace lib W cap c s) = [] := by
  rcases handlerTrace_cases lib W cap c s with
    ⟨e, hb, ht⟩ | ⟨i, hb, hl, ht⟩ | ⟨i, e, hb, hl, ht⟩ | ⟨i, cli, e, hb, hl, ht⟩ |
    ⟨i, cli, m, e, hb, hl, ht⟩ | ⟨i, cli, m, sg, e, hb, hl, ht⟩ |
    ⟨i, cli, m, sg, h', hb, hl, ht⟩
  all_goals rw [hbind] at hb
  all_goals cases hb
  all_goals first
    | exact absurd hl hlen
    | (rw [ht]; simp [responses, nodeCalls, Event.isNodeCall])

/-- The scenario of C3: an address of length 41. -/
theorem handler_wrong_length_rejected_without_node_call_witness :
    responses (handlerTrace sampleLib (sampleNode none "") sampleCaptured
        (requestFor addrShort) 7) =
      [(400, .msg "invalid address format")] ∧
    nodeCalls (handlerTrace sampleLib (sampleNode none "") sampleCaptured
        (requestFor addrShort) 7) = [] :=
  handler_wrong_length_rejected_without_node_call sampleLib (sampleNode none "")
    sampleCaptured (requestFor addrShort) 7
    ⟨addrShort⟩ rfl (by decide)

/-- C4: for a request with a 42-character address, when the node accepts the connection
and answers the pending-nonce fetch with an error, the handler answers 500 with `msg`
"failed to get a pending nonce" and never builds, signs or submits a transaction: after
the failed fetch it only closes the connection.  The hypotheses are about the answers of
the world. -/
theorem handler_nonce_failure_aborts {σ : Type} (lib : Lib) (W : World σ) (cap : Captured)
    (c : Context) (s s1 : σ) (input : UriInput) (cli : Client) (e : String)
    (hbind : c.ShouldBindUri = .ok input) (hlen : len input.Address = 42)
    (hconnect : W.Dial cap.endpoint s = (.ok cli, s1))
    (hnonce : (W.PendingNonceAt cli cap.faucetAddr s1).1 = .err e) :
    responses (handlerTrace lib W cap c s) = [(500, .msg "failed to get a pending nonce")] ∧
      built (handlerTrace lib W cap c s) = [] ∧
      signings (handlerTrace lib W cap c s) = [] ∧
      submitted (handlerTrace lib W cap c s) = [] ∧
      steps (handlerTrace lib W cap c s) = [(.connect, true), (.nonceFetch, false)] := by
  simp [handlerTrace, faucetHandler, hbind, hlen, Prog.trace, Prog.seq, withDefer, hconnect,
    hnonce, responses, built, signings, submitted, steps, Event.step?, Res.isErr]

/-- The scenario of C4: the node refuses the nonce fetch. -/
theorem handler_nonce_failure_aborts_witness :
    responses (handlerTrace sampleLib (sampleNode (some .nonceFetch) "timeout")
        sampleCaptured (requestFor addrA) 7) =
      [(500, .msg "failed to get a pending nonce")] ∧
    built (handlerTrace sampleLib (sampleNode (some .nonceFetch) "timeout")
        sampleCaptured (requestFor addrA) 7) = [] ∧
    signings (handlerTrace sampleLib (sampleNode (some .nonceFetch) "timeout")
        sampleCaptured (requestFor addrA) 7) = [] ∧
    submitted (handlerTrace sampleLib (sampleNode (some .nonceFetch) "timeout")
        sampleCaptured (requestFor addrA) 7) = [] ∧
    steps (handlerTrace sampleLib (sampleNode (some .nonceFetch) "timeout")
        sampleCaptured (requestFor addrA) 7) = [(.connect, true), (.nonceFetch, false)] :=
  handler_nonce_failure_aborts sampleLib (sampleNode (some .nonceFetch) "timeout")
    sampleCaptured (requestFor addrA) 7 7 ⟨addrA⟩ ⟨1⟩ "timeout" rfl (by decide)
    (by decide) (by decide)

/-- C5: for a request with a 42-character address, when the node accepts the connection
and answers the pending-nonce fetch with `n`, the signing routine signs the transaction,
and the node answers the submission with an error, the handler answers 500 with `msg`
"fail to send a transaction"; signing was called exactly once, before the submission, and
the submission was attempted exactly once, with the signed transaction: the steps
performed are connect, nonce fetch, sign and submit, once each in this order, and only
the last one failed.  The hypotheses are about the answers of the world. -/
theorem handler_submit_failure_after_one_signing {σ : Type} (lib : Lib) (W : World σ)
    (cap : Captured) (c : Context) (s s1 s2 s3 : σ) (input : UriInput) (cli : Client)
    (n : Nat) (sigs : TxSignatures) (e : String)
    (hbind : c.ShouldBindUri = .ok input) (hlen : len input.Address = 42)
    (hconnect : W.Dial cap.endpoint s = (.ok cli, s1))
    (hnonce : W.PendingNonceAt cli cap.faucetAddr s1 = (.ok n, s2))
    (hsign : W.SignWithKeys (faucetTx lib n input.Address) cap.signer [cap.faucetPrvKey] s2 =
      (.ok sigs, s3))
    (hsubmit : (W.SendRawTransaction cli
        { faucetTx lib n input.Address with signatures := some sigs } s3).1 = .err e) :
    responses (handlerTrace lib W cap c s) = [(500, .msg "fail to send a transaction")] ∧
      signings (handlerTrace lib W cap c s) =
        [(faucetTx lib n input.Address, cap.signer, [cap.faucetPrvKey])] ∧
      submitted (handlerTrace lib W cap c s) =
        [{ faucetTx lib n input.Address with signatures := some sigs }] ∧
      steps (handlerTrace lib W cap c s) =
        [(.connect, true), (.nonceFetch, true), (.sign, true), (.submit, false)] := by
  simp [faucetTx, NewTransaction, KLAY, Ston] at hsign hsubmit
  simp [handlerTrace, faucetHandler, hbind, hlen, Prog.trace, Prog.seq, withDefer, hconnect,
    hnonce, hsign, hsubmit, signedResult, submitted, signings, responses, steps, Event.step?,
    Res.isErr, faucetTx, NewTransaction, KLAY, Ston]

/-- The scenario of C5: the node refuses the submission. -/
theorem handler_submit_failure_after_one_signing_witness :
    responses (handlerTrace sampleLib (sampleNode (some .submit) "rejected")
        sampleCaptured (requestFor addrA) 7) =
      [(500, .msg "fail to send a transaction")] ∧
    signings (handlerTrace sampleLib (sampleNode (some .submit) "rejected")
        sampleCaptured (requestFor addrA) 7) =
      [(faucetTx sampleLib 7 addrA, NewEIP155Signer 1001, [⟨1⟩])] ∧
    submitted (handlerTrace sampleLib (sampleNode (some .submit) "rejected")
        sampleCaptured (requestFor addrA) 7) =
      [{ faucetTx sampleLib 7 addrA with signatures := some [⟨1001, 1, 7⟩] }] ∧
    steps (handlerTrace sampleLib (sampleNode (some .submit) "rejected")
        sampleCaptured (requestFor addrA) 7) =
      [(.connect, true), (.nonceFetch, true), (.sign, true), (.submit, false)] :=
  handler_submit_failure_after_one_signing sampleLib (sampleNode (some .submit) "rejected")
    sampleCaptured (requestFor addrA) 7 7 7 7 ⟨addrA⟩ ⟨1⟩ 7 [⟨1001, 1, 7⟩] "rejected" rfl
    (by decide) (by decide) (by decide) (by decide) (by decide)

/-- C6: when the handler opens a connection, it closes that connection exactly once, as
the last call of the request and so after every other node call, on whichever path the
request ends; when it opens none, it closes none. -/
theorem handler_closes_what_it_opened {σ : Type} (lib : Lib) (W : World σ) (cap : Captured)
    (c : Context) (s : σ) :
    (∀ cli, cli ∈ opened (handlerTrace lib W cap c s) →
      opened (handlerTrace lib W cap c s) = [cli] ∧
      closed (handlerTrace lib W cap c s) = [cli] ∧
      ∃ pre, handlerTrace lib W cap c s = pre ++ [.close cli] ∧ closed pre = []) ∧
    (opened (handlerTrace lib W cap c s) = [] → closed (handlerTrace lib W cap c s) = []) := by
  rcases handlerTrace_cases lib W cap c s with
    ⟨e, _, ht⟩ | ⟨i, _, _, ht⟩ | ⟨i, e, _, _, ht⟩ | ⟨i, cli, e, _, _, ht⟩ |
    ⟨i, cli, m, e, _, _, ht⟩ | ⟨i, cli, m, sg, e, _, _, ht⟩ | ⟨i, cli, m, sg, h', _, _, ht⟩
  all_goals rw [ht]
  all_goals simp [opened, closed]
  · exact ⟨[_, _, _, _], rfl, by simp [closed]⟩
  · exact ⟨[_, _, _, _, _, _], rfl, by simp [closed]⟩
  · exact ⟨[_, _, _, _, _, _, _], rfl, by simp [closed]⟩
  · exact ⟨[_, _, _, _, _, _], rfl, by simp [closed]⟩

/-- The scenarios of C6: the four exit paths after the connection was opened (success,
nonce-fetch failure, signing failure, submission failure) each close it once, and a
request whose connection fails closes nothing. -/
theorem handler_closes_what_it_opened_witness :
    (closed (handlerTrace sampleLib (sampleNode none "") sampleCaptured
        (requestFor addrA) 7) = [⟨1⟩] ∧
      closed (handlerTrace sampleLib (sampleNode (some .nonceFetch) "timeout") sampleCaptured
        (requestFor addrA) 7) = [⟨1⟩] ∧
      closed (handlerTrace sampleLib (sampleNode (some .sign) "bad key") sampleCaptured
        (requestFor addrA) 7) = [⟨1⟩] ∧
      closed (handlerTrace sampleLib (sampleNode (some .submit) "rejected") sampleCaptured
        (requestFor addrA) 7) = [⟨1⟩]) ∧
    closed (handlerTrace sampleLib (sampleNode (some .connect) "refused") sampleCaptured
        (requestFor addrA) 7) = [] :=
  ⟨⟨((handler_closes_what_it_opened sampleLib (sampleNode none "") sampleCaptured
        (requestFor addrA) 7).1 ⟨1⟩ (by decide)).2.1,
      ((handler_closes_what_it_opened sampleLib (sampleNode (some .nonceFetch) "timeout")
        sampleCaptured (requestFor addrA) 7).1 ⟨1⟩ (by decide)).2.1,
      ((handler_closes_what_it_opened sampleLib (sampleNode (some .sign) "bad key")
        sampleCaptured (requestFor addrA) 7).1 ⟨1⟩ (by decide)).2.1,
      ((handler_closes_what_it_opened sampleLib (sampleNode (some .submit) "rejected")
        sampleCaptured (requestFor addrA) 7).1 ⟨1⟩ (by decide)).2.1⟩,
    (handler_closes_what_it_opened sampleLib (sampleNode (some .connect) "refused")
      sampleCaptured (requestFor addrA) 7).2 (by decide)⟩

/-- C7, refuted as stated: two requests served concurrently against the sample node with
pending nonce 7, the second fetching its nonce before the first has submitted.  Both
handlers run to their return, their critical sections overlap, and both submit a
transaction with nonce 7. -/
theorem concurrent_requests_share_a_nonce :
    ((afterSchedule (sampleNode none "") [0, 0, 1, 1, 0, 0, 0, 0, 0, 1, 1, 1, 1, 1, 1]
        [faucetHandler sampleLib sampleCaptured (requestFor addrA),
          faucetHandler sampleLib sampleCaptured (requestFor addrB)] 7).all
      Prog.isDone) = true ∧
    sectionsDisjoint none
      (runSchedule (sampleNode none "") [0, 0, 1, 1, 0, 0, 0, 0, 0, 1, 1, 1, 1, 1, 1]
        [faucetHandler sampleLib sampleCaptured (requestFor addrA),
          faucetHandler sampleLib sampleCaptured (requestFor addrB)] 7) = false ∧
    usedNonces
      (runSchedule (sampleNode none "") [0, 0, 1, 1, 0, 0, 0, 0, 0, 1, 1, 1, 1, 1, 1]
        [faucetHandler sampleLib sampleCaptured (requestFor addrA),
          faucetHandler sampleLib sampleCaptured (requestFor addrB)] 7) = [7, 7] ∧
    taggedResponses
      (runSchedule (sampleNode none "") [0, 0, 1, 1, 0, 0, 0, 0, 0, 1, 1, 1, 1, 1, 1]
        [faucetHandler sampleLib sampleCaptured (requestFor addrA),
          faucetHandler sampleLib sampleCaptured (requestFor addrB)] 7) =
      [(0, 200, .txHash ⟨[7]⟩), (1, 500, .msg "fail to send a transaction")] := by
  decide

/-- C7, amended: the handler takes no lock, so only requests that do not overlap in time
are serialized.  Under the schedule that serves the requests one at a time the critical
sections never overlap, in any world; and in every world where an issuance always goes
through (every connection accepted, every pending-nonce fetch answered with the pending
nonce, every signing successful, a submission carrying the pending nonce accepted and
advancing it by one, nothing else changing it), `N` requests with addresses of length 42
then use the `N` consecutive nonces from the initial pending nonce on, which are distinct
and increasing. -/
theorem requests_in_turn_use_increasing_nonces {σ : Type} (lib : Lib) (W : World σ)
    (cap : Captured) (cs : List Context) (s : σ) :
    sectionsDisjoint none
        (runSchedule W (oneAtATime 0 cs.length) (cs.map (faucetHandler lib cap)) s) = true ∧
    (∀ pending : σ → Nat, AdvancingNode W pending → (∀ c ∈ cs, c.lengthOk = true) →
      usedNonces (runSchedule W (oneAtATime 0 cs.length)
          (cs.map (faucetHandler lib cap)) s) = List.range' (pending s) cs.length ∧
      List.Pairwise (fun a b => a < b)
        (usedNonces (runSchedule W (oneAtATime 0 cs.length)
          (cs.map (faucetHandler lib cap)) s))) := by
  have hW := runSchedule_oneAtATime lib W cap cs [] s
  simp only [List.length_nil, List.nil_append] at hW
  rw [hW]
  refine ⟨sectionsDisjoint_servedInTurn lib W cap cs 0 s, fun pending hp h => ?_⟩
  rw [usedNonces_servedInTurn lib W pending hp cap cs 0 s h]
  exact ⟨rfl, List.pairwise_lt_range' (pending s) cs.length⟩

/-- The scenario of C7 as amended: the two requests of the counterexample, served one at a
time from pending nonce 7, use the nonces 7 and 8. -/
theorem requests_in_turn_use_increasing_nonces_witness :
    usedNonces (runSchedule (sampleNode none "") (oneAtATime 0 2)
        ([requestFor addrA, requestFor addrB].map (faucetHandler sampleLib sampleCaptured))
        7) = [7, 8] :=
  ((requests_in_turn_use_increasing_nonces sampleLib (sampleNode none "") sampleCaptured
    [requestFor addrA, requestFor addrB] 7).2 id sampleNode_advancing (by decide)).1

/-- C8: for every argument vector, if the number of arguments is not 4, or `Atoi` fails on
the chain identifier, or the connection to the endpoint fails, or `HexToECDSA` fails on
the key, then `main` prints a diagnostic line and a detail line and returns without
creating the router, registering the route or starting the server; the server is started
only when all four checks pass, and when they pass it is started, after the route has
been registered with the parsed chain identifier, the endpoint and the key. -/
theorem main_fails_fast {σ : Type} (lib : Lib) (W : World σ) (Args : List String) (s : σ) :
    ((Args.length ≠ 4 ∨ (∃ e, lib.Atoi (Args.getD 1 "") = .err e) ∨
        (∃ e, (W.Dial (Args.getD 2 "") s).1 = .err e) ∨
        (∃ e, lib.HexToECDSA (Args.getD 3 "") = .err e)) →
      (∃ d detail, printed (mainTrace lib W Args s) = [d, detail] ∧
        d ∈ startupDiagnostics) ∧
      Event.ginDefault ∉ mainTrace lib W Args s ∧
      (∀ path closure, Event.routeGET path closure ∉ mainTrace lib W Args s) ∧
      (∀ addr, Event.routeRun addr ∉ mainTrace lib W Args s)) ∧
    (∀ addr, Event.routeRun addr ∈ mainTrace lib W Args s →
      Args.length = 4 ∧ (∃ chainId, lib.Atoi (Args.getD 1 "") = .ok chainId) ∧
        (∃ cli, (W.Dial (Args.getD 2 "") s).1 = .ok cli) ∧
        (∃ key, lib.HexToECDSA (Args.getD 3 "") = .ok key)) ∧
    (∀ chainId cli key, Args.length = 4 → lib.Atoi (Args.getD 1 "") = .ok chainId →
      (W.Dial (Args.getD 2 "") s).1 = .ok cli → lib.HexToECDSA (Args.getD 3 "") = .ok key →
      mainTrace lib W Args s =
        [.dial (Args.getD 2 "") (.ok cli), .close cli,
          .println ("Faucet Address:  " ++ lib.AddressString (lib.PubkeyToAddress key)),
          .ginDefault,
          .routeGET "/faucet/:address"
            { endpoint := Args.getD 2 "", signer := NewEIP155Signer chainId,
              faucetPrvKey := key, faucetAddr := lib.PubkeyToAddress key },
          .routeRun ":80"]) := by
  unfold mainTrace main
  by_cases hlen : Args.length = 4
  · simp only [hlen, ne_eq, not_true_eq_false, if_false]
    cases h1 : lib.Atoi (Args.getD 1 "") with
    | err e1 => simp [Prog.trace, printed, startupDiagnostics]
    | ok chainId =>
      cases h2 : (W.Dial (Args.getD 2 "") s).1 with
      | err e2 => simp [Prog.trace, printed, startupDiagnostics, h2, -List.getD_eq_getElem?_getD]
      | ok cli =>
        cases h3 : lib.HexToECDSA (Args.getD 3 "") with
        | err e3 => simp [Prog.trace, printed, startupDiagnostics, h2, -List.getD_eq_getElem?_getD]
        | ok key => simp [Prog.trace, printed, startupDiagnostics, h2, -List.getD_eq_getElem?_getD]
  · simp [hlen, Prog.trace, printed, startupDiagnostics]

/-- The scenarios of C8: a missing argument, and a chain identifier that is not a number. -/
theorem main_fails_fast_witness :
    ((∃ d detail, printed (mainTrace sampleLib (sampleNode none "")
          ["faucet", "1001", "http://127.0.0.1:8551"] 7) = [d, detail] ∧
        d ∈ startupDiagnostics) ∧
      Event.ginDefault ∉ mainTrace sampleLib (sampleNode none "")
        ["faucet", "1001", "http://127.0.0.1:8551"] 7 ∧
      (∀ path closure, Event.routeGET path closure ∉ mainTrace sampleLib (sampleNode none "")
        ["faucet", "1001", "http://127.0.0.1:8551"] 7) ∧
      (∀ addr, Event.routeRun addr ∉ mainTrace sampleLib (sampleNode none "")
        ["faucet", "1001", "http://127.0.0.1:8551"] 7)) ∧
    mainTrace sampleLib (sampleNode none "")
        ["faucet", "1001", "http://127.0.0.1:8551", "01"] 7 =
      [.dial "http://127.0.0.1:8551" (.ok ⟨1⟩), .close ⟨1⟩,
        .println "Faucet Address:  0xfaucet", .ginDefault,
        .routeGET "/faucet/:address" sampleCaptured, .routeRun ":80"] :=
  ⟨(main_fails_fast sampleLib (sampleNode none "")
      ["faucet", "1001", "http://127.0.0.1:8551"] 7).1 (Or.inl (by decide)),
    (main_fails_fast sampleLib (sampleNode none "")
      ["faucet", "1001", "http://127.0.0.1:8551", "01"] 7).2.2 1001 ⟨1⟩ ⟨1⟩
      (by decide) (by decide) (by decide) (by decide)⟩

/-- C9: the response to a failing request depends neither on the private key nor on the
text of the node's errors.  Two runs of the handler on the same request, in any two
worlds (so with any error texts) and with any two libraries and sets of captured
variables (so with any two private keys), that both fail at the step `st`, write the same
single response, 500 with the fixed message of `st`; a request rejected for its address
gets the same 400 response in both runs; every 500 body is one of the four fixed
messages; and every run is of one of these two kinds or answers 200 with a hash. -/
theorem handler_failure_response_independent {σ τ : Type} (lib lib' : Lib) (W : World σ)
    (V : World τ) (cap cap' : Captured) (c : Context) (s : σ) (s' : τ) :
    (∀ st, failedStep (handlerTrace lib W cap c s) = some st →
      failedStep (handlerTrace lib' V cap' c s') = some st →
      responses (handlerTrace lib W cap c s) = responses (handlerTrace lib' V cap' c s') ∧
      responses (handlerTrace lib W cap c s) = [(500, failureBody st)]) ∧
    (c.lengthOk = false →
      responses (handlerTrace lib W cap c s) = responses (handlerTrace lib' V cap' c s') ∧
      ∀ r ∈ responses (handlerTrace lib W cap c s), r.1 = 400) ∧
    (∀ body, (500, body) ∈ responses (handlerTrace lib W cap c s) → body ∈ failureBodies) ∧
    (c.lengthOk = false ∨ (∃ st, failedStep (handlerTrace lib W cap c s) = some st) ∨
      ∃ h, responses (handlerTrace lib W cap c s) = [(200, .txHash h)]) := by
  refine ⟨?_, ?_, ?_, ?_⟩
  · intro st h1 h2
    rcases handlerTrace_cases lib W cap c s with
      ⟨e, hb, ht⟩ | ⟨i, hb, hl, ht⟩ | ⟨i, e, hb, hl, ht⟩ | ⟨i, cli, e, hb, hl, ht⟩ |
      ⟨i, cli, m, e, hb, hl, ht⟩ | ⟨i, cli, m, sg, e, hb, hl, ht⟩ |
      ⟨i, cli, m, sg, h', hb, hl, ht⟩
    all_goals
      rcases handlerTrace_cases lib' V cap' c s' with
        ⟨e2, hb2, ht2⟩ | ⟨i2, hb2, hl2, ht2⟩ | ⟨i2, e2, hb2, hl2, ht2⟩ |
        ⟨i2, cli2, e2, hb2, hl2, ht2⟩ | ⟨i2, cli2, m2, e2, hb2, hl2, ht2⟩ |
        ⟨i2, cli2, m2, sg2, e2, hb2, hl2, ht2⟩ | ⟨i2, cli2, m2, sg2, h2', hb2, hl2, ht2⟩
    all_goals rw [ht] at h1 ⊢
    all_goals rw [ht2] at h2 ⊢
    all_goals simp [failedStep, steps, Event.step?, Res.isErr] at h1 h2
    all_goals subst h1
    all_goals first
      | (simp at h2; done)
      | simp [responses, failureBody]
  · intro hc
    rcases handlerTrace_cases lib W cap c s with
      ⟨e, hb, ht⟩ | ⟨i, hb, hl, ht⟩ | ⟨i, e, hb, hl, ht⟩ | ⟨i, cli, e, hb, hl, ht⟩ |
      ⟨i, cli, m, e, hb, hl, ht⟩ | ⟨i, cli, m, sg, e, hb, hl, ht⟩ |
      ⟨i, cli, m, sg, h', hb, hl, ht⟩
    all_goals
      rcases handlerTrace_cases lib' V cap' c s' with
        ⟨e2, hb2, ht2⟩ | ⟨i2, hb2, hl2, ht2⟩ | ⟨i2, e2, hb2, hl2, ht2⟩ |
        ⟨i2, cli2, e2, hb2, hl2, ht2⟩ | ⟨i2, cli2, m2, e2, hb2, hl2, ht2⟩ |
        ⟨i2, cli2, m2, sg2, e2, hb2, hl2, ht2⟩ | ⟨i2, cli2, m2, sg2, h2', hb2, hl2, ht2⟩
    all_goals rw [ht, ht2]
    all_goals simp only [Context.lengthOk, hb] at hc
    all_goals rw [hb] at hb2
    all_goals cases hb2
    all_goals simp [responses] at hc ⊢
    all_goals first
      | exact absurd hl hc
      | exact absurd hl2 hc
  · rcases handlerTrace_cases lib W cap c s with
      ⟨e, _, ht⟩ | ⟨i, _, _, ht⟩ | ⟨i, e, _, _, ht⟩ | ⟨i, cli, e, _, _, ht⟩ |
      ⟨i, cli, m, e, _, _, ht⟩ | ⟨i, cli, m, sg, e, _, _, ht⟩ | ⟨i, cli, m, sg, h', _, _, ht⟩
    all_goals rw [ht]
    all_goals simp [responses, failureBodies]
  · rcases handlerTrace_cases lib W cap c s with
      ⟨e, hb, ht⟩ | ⟨i, hb, hl, ht⟩ | ⟨i, e, hb, hl, ht⟩ | ⟨i, cli, e, hb, hl, ht⟩ |
      ⟨i, cli, m, e, hb, hl, ht⟩ | ⟨i, cli, m, sg, e, hb, hl, ht⟩ |
      ⟨i, cli, m, sg, h', hb, hl, ht⟩
    · left
      simp [Context.lengthOk, hb]
    all_goals rw [ht]
    all_goals simp [Context.lengthOk, hb, hl, responses, failedStep, steps, Event.step?,
      Res.isErr]

/-- The scenario of C9: two runs whose nonce fetch fails with different error texts, under
different private keys. -/
theorem handler_failure_response_independent_witness :
    responses (handlerTrace sampleLib (sampleNode (some .nonceFetch) "timeout")
        sampleCaptured (requestFor addrA) 7) =
      responses (handlerTrace sampleLib (sampleNode (some .nonceFetch) "connection reset")
        { sampleCaptured with faucetPrvKey := ⟨2⟩ } (requestFor addrA) 9) ∧
    responses (handlerTrace sampleLib (sampleNode (some .nonceFetch) "timeout")
        sampleCaptured (requestFor addrA) 7) =
      [(500, .msg "failed to get a pending nonce")] :=
  (handler_failure_response_independent sampleLib sampleLib
    (sampleNode (some .nonceFetch) "timeout")
    (sampleNode (some .nonceFetch) "connection reset") sampleCaptured
    { sampleCaptured with faucetPrvKey := ⟨2⟩ } (requestFor addrA) 7 9).1 .nonceFetch
    (by decide) (by decide)

/-- C10: in every run of the handler the steps performed are an initial part of connect,
nonce fetch, sign, submit, so each is performed at most once and in this order; after a
step that failed no further step is performed and no transaction is built, and the only
connections closed are ones opened before; a failed connect is followed by the 500
response alone, with no nonce fetch, signing, submission or close. -/
theorem handler_no_retry_abort_on_failure {σ : Type} (lib : Lib) (W : World σ)
    (cap : Captured) (c : Context) (s : σ) :
    (∃ k, (steps (handlerTrace lib W cap c s)).map Prod.fst =
      [Step.connect, Step.nonceFetch, Step.sign, Step.submit].take k) ∧
    (∀ pre e post st, handlerTrace lib W cap c s = pre ++ e :: post →
      e.step? = some (st, false) →
      steps post = [] ∧ built post = [] ∧ ∀ cli ∈ closed post, cli ∈ opened pre) ∧
    (∀ e, Event.dial cap.endpoint (.err e) ∈ handlerTrace lib W cap c s →
      responses (handlerTrace lib W cap c s) =
        [(500, .msg "failed to connect to a Klaytn node")] ∧
      steps (handlerTrace lib W cap c s) = [(.connect, false)] ∧
      closed (handlerTrace lib W cap c s) = []) := by
  refine ⟨?_, ?_, ?_⟩
  · rcases handlerTrace_cases lib W cap c s with
      ⟨e, _, ht⟩ | ⟨i, _, _, ht⟩ | ⟨i, e, _, _, ht⟩ | ⟨i, cli, e, _, _, ht⟩ |
      ⟨i, cli, m, e, _, _, ht⟩ | ⟨i, cli, m, sg, e, _, _, ht⟩ | ⟨i, cli, m, sg, h', _, _, ht⟩
    all_goals rw [ht]
    · exact ⟨0, by simp [steps, Event.step?]⟩
    · exact ⟨0, by simp [steps, Event.step?]⟩
    · exact ⟨1, by simp [steps, Event.step?]⟩
    · exact ⟨2, by simp [steps, Event.step?]⟩
    · exact ⟨3, by simp [steps, Event.step?]⟩
    · exact ⟨4, by simp [steps, Event.step?]⟩
    · exact ⟨4, by simp [steps, Event.step?]⟩
  · intro pre e' post st hsplit hstep
    rcases handlerTrace_cases lib W cap c s with
      ⟨e, _, ht⟩ | ⟨i, _, _, ht⟩ | ⟨i, e, _, _, ht⟩ | ⟨i, cli, e, _, _, ht⟩ |
      ⟨i, cli, m, e, _, _, ht⟩ | ⟨i, cli, m, sg, e, _, _, ht⟩ | ⟨i, cli, m, sg, h', _, _, ht⟩
    all_goals rw [ht] at hsplit
    all_goals simp [List.cons_eq_append_iff, List.nil_eq_append_iff] at hsplit
    all_goals casesm* _ ∨ _, _ ∧ _, ∃ _, _
    all_goals subst_vars
    all_goals simp [Event.step?, Res.isErr] at hstep
    all_goals simp [steps, built, closed, opened, Event.step?]
  · intro e' he'
    rcases handlerTrace_cases lib W cap c s with
      ⟨e, _, ht⟩ | ⟨i, _, _, ht⟩ | ⟨i, e, _, _, ht⟩ | ⟨i, cli, e, _, _, ht⟩ |
      ⟨i, cli, m, e, _, _, ht⟩ | ⟨i, cli, m, sg, e, _, _, ht⟩ | ⟨i, cli, m, sg, h', _, _, ht⟩
    all_goals rw [ht] at he' ⊢
    all_goals simp at he'
    simp [responses, steps, Event.step?, Res.isErr, closed]

/-- The scenario of C10: the connection fails. -/
theorem handler_no_retry_abort_on_failure_witness :
    responses (handlerTrace sampleLib (sampleNode (some .connect) "refused") sampleCaptured
        (requestFor addrA) 7) =
      [(500, .msg "failed to connect to a Klaytn node")] ∧
    steps (handlerTrace sampleLib (sampleNode (some .connect) "refused") sampleCaptured
        (requestFor addrA) 7) = [(.connect, false)] ∧
    closed (handlerTrace sampleLib (sampleNode (some .connect) "refused") sampleCaptured
        (requestFor addrA) 7) = [] :=
  (handler_no_retry_abort_on_failure sampleLib (sampleNode (some .connect) "refused")
    sampleCaptured (requestFor addrA) 7).2.2 "refused" (by decide)

end Faucet
